import Mathlib

/-!
Shallow embedding of `src/Heterogenous/stacking_HR.py`.

The script is a linear pandas/sklearn pipeline over two tabular datasets:
clean (sentinel replacement, numeric coercion, mean imputation), drop the
identifier column, rename the second dataset's columns, binarize the `num`
outcome column, row-concatenate, subsample, standardize, train/test split,
grid-searched stacking ensemble, and a diversity statistic computed with
`pairwise_distances(pred_matrix, metric='hamming').mean()`.

Cells of an in-memory table are strings, rationals (standing for the
numeric values; the script's float arithmetic is modelled exactly over ℚ,
with the standard-deviation division modelled over ℝ), or the missing
marker `na` (pandas NaN).
-/

/-- A cell of an in-memory pandas table: a string, a numeric value, or the
missing marker (NaN). `pd.read_csv` produces numeric cells for columns it
parses as numeric and string cells otherwise. -/
inductive Cell
  | str (s : String)
  | num (q : ℚ)
  | na
deriving DecidableEq, Repr

/-- A pandas DataFrame, represented column-wise: a list of named columns,
rows corresponding positionally across columns. -/
structure DataFrame where
  cols : List (String × List Cell)
deriving DecidableEq, Repr

/-- The column names of a DataFrame, in order (`df.columns`). -/
def DataFrame.header (df : DataFrame) : List String :=
  df.cols.map Prod.fst

/-- Number of rows (length of the first column; 0 for an empty frame). -/
def DataFrame.nRows (df : DataFrame) : ℕ :=
  match df.cols with
  | [] => 0
  | p :: _ => p.2.length

/-- All columns have the same length. -/
def DataFrame.WellFormed (df : DataFrame) : Prop :=
  ∀ p ∈ df.cols, p.2.length = df.nRows

/-- Cells of the column with the given name (empty if absent). -/
def DataFrame.colCells (df : DataFrame) (name : String) : List Cell :=
  (df.cols.find? (fun p => p.1 == name)).elim [] Prod.snd

/-! ### Cleaning: `replace(['?', '-9'], np.nan)`, `apply(pd.to_numeric, errors='coerce')`, `fillna(df.mean())` -/

/-- Parse an optional run of decimal digits into a natural number
(`none` on a non-digit; `some acc` when the run is exhausted). -/
def parseDigitsAux : ℕ → List Char → Option ℕ
  | acc, [] => some acc
  | acc, c :: cs =>
      if c.isDigit then parseDigitsAux (10 * acc + (c.toNat - 48)) cs
      else none

/-- Parse a decimal literal (optional sign, digits, optional fractional
part) into a rational, as `pd.to_numeric` does for parseable strings.
Exponent notation is not modelled; any unparseable string maps to `none`. -/
def parseNum (s : String) : Option ℚ :=
  let cs := s.toList
  let signed : Bool × List Char :=
    match cs with
    | '-' :: t => (true, t)
    | '+' :: t => (false, t)
    | _ => (false, cs)
  let body := signed.2
  let val : Option ℚ :=
    match body.splitOn '.' with
    | [ip] =>
        if ip.isEmpty then none
        else (parseDigitsAux 0 ip).map (fun n => (n : ℚ))
    | [ip, fp] =>
        if ip.isEmpty ∧ fp.isEmpty then none
        else
          match parseDigitsAux 0 ip, parseDigitsAux 0 fp with
          | some i, some f => some ((i : ℚ) + (f : ℚ) / ((10 : ℚ) ^ fp.length))
          | _, _ => none
    | _ => none
  val.map (fun q => if signed.1 then -q else q)

/-- One cell of `df.replace(['?', '-9'], np.nan)`: the string tokens `"?"`
and `"-9"` become the missing marker; every other cell (including the
numeric value -9 in a column `read_csv` already parsed as numeric) is
unchanged. -/
def replaceSentinelCell : Cell → Cell
  | .str "?" => .na
  | .str "-9" => .na
  | c => c

/-- One cell of `pd.to_numeric(..., errors='coerce')`: numeric and missing
cells are unchanged, a string parses to its numeric value or coerces to the
missing marker. -/
def toNumericCell : Cell → Cell
  | .num q => .num q
  | .na => .na
  | .str s =>
      match parseNum s with
      | some q => .num q
      | none => .na

/-- The numeric value of a cell, when it has one. -/
def numVal : Cell → Option ℚ
  | .num q => some q
  | _ => none

/-- Column mean over non-missing numeric cells (`df.mean()` skips NaN);
`none` when the column has no numeric cell (pandas: NaN mean). -/
def colMean (cs : List Cell) : Option ℚ :=
  let vs := cs.filterMap numVal
  if vs.length = 0 then none else some (vs.sum / (vs.length : ℚ))

/-- One column of `df.fillna(df.mean())`: missing cells become the column
mean; when the mean itself is undefined (all-missing column) `fillna` is a
no-op and the column keeps its missing cells. -/
def fillCol (cs : List Cell) : List Cell :=
  match colMean cs with
  | none => cs
  | some m => cs.map (fun c => match c with | .na => .num m | c => c)

/-- Whole-frame pass of `df.replace(['?', '-9'], np.nan)`. -/
def replaceSentinels (df : DataFrame) : DataFrame :=
  ⟨df.cols.map (fun p => (p.1, p.2.map replaceSentinelCell))⟩

/-- Whole-frame pass of `df.apply(pd.to_numeric, errors='coerce')`. -/
def toNumericDf (df : DataFrame) : DataFrame :=
  ⟨df.cols.map (fun p => (p.1, p.2.map toNumericCell))⟩

/-- Whole-frame pass of `df.fillna(df.mean())` (means computed per column
of the frame being filled). -/
def fillnaMean (df : DataFrame) : DataFrame :=
  ⟨df.cols.map (fun p => (p.1, fillCol p.2))⟩

/-- The three cleaning passes the script applies to each dataset, in the
script's order: sentinel replacement, numeric coercion, mean imputation. -/
def cleanDataset (df : DataFrame) : DataFrame :=
  fillnaMean (toNumericDf (replaceSentinels df))

/-- Sentinel replacement followed by numeric coercion, on one cell. -/
def coerceCell (c : Cell) : Cell :=
  toNumericCell (replaceSentinelCell c)

/-- The net effect of the three cleaning passes on one column. -/
def cleanCol (cs : List Cell) : List Cell :=
  fillCol ((cs.map replaceSentinelCell).map toNumericCell)

/-! ### Schema harmonization: `drop(columns=['patientid'])`, `rename(columns=feature_mapping)` -/

/-- The script's `feature_mapping` rename table (India-dataset name to UCI
canonical name), verbatim. -/
def featureMapping : List (String × String) :=
  [("age", "Age"), ("gender", "Sex"), ("chestpain", "cp"),
   ("restingBP", "trestbps"), ("serumcholestrol", "chol"),
   ("fastingbloodsugar", "fbs"), ("restingrelectro", "restecg"),
   ("maxheartrate", "thalach"), ("exerciseangia", "exang"),
   ("oldpeak", "oldpeak"), ("slope", "slope"),
   ("noofmajorvessels", "ca"), ("target", "num")]

/-- Rename one column name through `feature_mapping` (names outside the
table are unchanged, as with `DataFrame.rename`). -/
def renameName (s : String) : String :=
  ((featureMapping.find? (fun p => p.1 == s)).map Prod.snd).getD s

/-- Drop the `patientid` column if present (the script guards with
`if 'patientid' in india_df.columns`; filtering covers both cases). -/
def dropPatientid (df : DataFrame) : DataFrame :=
  ⟨df.cols.filter (fun p => p.1 != "patientid")⟩

/-- Rename all columns through `feature_mapping`. -/
def renameCols (df : DataFrame) : DataFrame :=
  ⟨df.cols.map (fun p => (renameName p.1, p.2))⟩

/-- Full harmonization of the UCI dataset: cleaning only. -/
def harmonizeUci (df : DataFrame) : DataFrame :=
  cleanDataset df

/-- Full harmonization of the India dataset: cleaning, identifier drop,
rename — in the script's order. -/
def harmonizeIndia (df : DataFrame) : DataFrame :=
  renameCols (dropPatientid (cleanDataset df))

/-! ### Label binarization: `df['num'].apply(lambda x: 1 if x > 0 else 0)` -/

/-- Python's `x > 0` on a cell: true for a positive numeric value; false
for NaN (any comparison with NaN is false) and for the missing marker. A
string cell would raise in Python, but cleaning removes all string cells
before the lambda runs; the model returns false there to stay total. -/
def cellPos : Cell → Bool
  | .num q => decide (0 < q)
  | _ => false

/-- The binarization lambda `1 if x > 0 else 0` on one cell. -/
def binarizeCell (c : Cell) : Cell :=
  .num (if cellPos c then 1 else 0)

/-- Apply the binarization lambda to the `num` column of a frame, leaving
every other column unchanged. -/
def binarizeNum (df : DataFrame) : DataFrame :=
  ⟨df.cols.map (fun p => if p.1 == "num" then (p.1, p.2.map binarizeCell) else p)⟩

/-! ### Row-wise concatenation: `pd.concat([uci_df, india_df], ignore_index=True)` -/

/-- pandas `pd.concat(axis=0, join='outer', sort=False)`: the result's
columns are the first frame's columns followed by the second frame's
columns not present in the first; a column absent from one side is filled
with the missing marker for that side's rows. Concatenation is total: no
exception is raised on mismatched schemas. -/
def pdConcat (a b : DataFrame) : DataFrame :=
  ⟨(a.cols.map (fun p =>
      (p.1, p.2 ++ ((b.cols.find? (fun q => q.1 == p.1)).elim
         (List.replicate b.nRows Cell.na) Prod.snd))))
   ++ ((b.cols.filter (fun p => !(a.cols.any (fun q => q.1 == p.1)))).map
        (fun p => (p.1, List.replicate a.nRows Cell.na ++ p.2)))⟩

/-- The combined dataset of the script: both sources harmonized and
binarized independently, then concatenated. -/
def combinedData (uci india : DataFrame) : DataFrame :=
  pdConcat (binarizeNum (harmonizeUci uci)) (binarizeNum (harmonizeIndia india))

/-! ### Sampling and splitting: `sample(frac=0.1, random_state=42)`,
`train_test_split(test_size=0.2, random_state=42)`

The exact permutation the seeded numpy generators draw is
implementation-defined (the spec itself only requires determinism given
the seed), so the pseudo-random shuffle is modelled by a concrete
deterministic generator: a small linear congruential stream driving a
selection-without-replacement shuffle. -/

/-- One step of the modelled linear congruential generator. -/
def lcgNext (s : ℕ) : ℕ :=
  (75 * s + 74) % 65537

/-- Selection-without-replacement shuffle driven by the LCG stream: at
each step remove the element at position `seed % remaining` (fuel is the
list length). -/
def shuffleAux : ℕ → ℕ → List ℕ → List ℕ
  | 0, _, _ => []
  | _ + 1, _, [] => []
  | fuel + 1, seed, l =>
      l.getD (seed % l.length) 0 :: shuffleAux fuel (lcgNext seed) (l.eraseIdx (seed % l.length))

/-- The modelled deterministic permutation of `[0, ..., n-1]` drawn from a
seed: a pure function of `(seed, n)`, never of the row contents. -/
def shuffle (seed n : ℕ) : List ℕ :=
  shuffleAux n (lcgNext seed) (List.range n)

/-- Row count of `df.sample(frac=0.1)`: pandas takes `round(0.1 * n)`
rows (the model rounds half up; the tie rule is immaterial here). -/
def sampleCount (n : ℕ) : ℕ :=
  (n + 5) / 10

/-- The row indices `data_sampled` keeps, as a pure function of the seed
and the row count. -/
def sampledIdx (seed n : ℕ) : List ℕ :=
  (shuffle seed n).take (sampleCount n)

/-- `combined_data.sample(frac=0.1, random_state=seed)`: select the
sampled rows of every column. -/
def sampleDf (seed : ℕ) (df : DataFrame) : DataFrame :=
  ⟨df.cols.map (fun p => (p.1, (sampledIdx seed df.nRows).filterMap p.2.get?))⟩

/-- Held-out size of `train_test_split(test_size=0.2)`: sklearn takes
`ceil(0.2 * n)` rows for the test partition. -/
def testCount (n : ℕ) : ℕ :=
  (n + 4) / 5

/-- Test-partition row indices of `train_test_split(random_state=seed)`:
the first `testCount n` entries of the seeded permutation. -/
def testIdx (seed n : ℕ) : List ℕ :=
  (shuffle seed n).take (testCount n)

/-- Train-partition row indices: the remaining entries of the seeded
permutation. -/
def trainIdx (seed n : ℕ) : List ℕ :=
  (shuffle seed n).drop (testCount n)

/-! ### Standardization: `StandardScaler().fit_transform(X)`

In the script the scaler is fit on the WHOLE sampled feature matrix `X`
(line 75) and only afterwards is `X_scaled` split into train and test
partitions (line 78). -/

/-- Number of feature columns of a numeric matrix (row-major, one inner
list per sample). -/
def ncols (X : List (List ℚ)) : ℕ :=
  (X.headD []).length

/-- Column `j` of a numeric matrix. -/
def colOf (X : List (List ℚ)) (j : ℕ) : List ℚ :=
  X.map (fun r => r.getD j 0)

/-- Mean of a list of rationals (0 for the empty list, matching the
convention `0 / 0 = 0`). -/
def listMean (l : List ℚ) : ℚ :=
  l.sum / (l.length : ℚ)

/-- Population variance of a list of rationals (`ddof=0`, as
`StandardScaler` uses). -/
def listVar (l : List ℚ) : ℚ :=
  ((l.map (fun x => (x - listMean l) ^ 2)).sum) / (l.length : ℚ)

/-- `StandardScaler.fit`: per-column mean and population variance, fit on
every row of the given matrix. -/
def fitStats (X : List (List ℚ)) : List (ℚ × ℚ) :=
  (List.range (ncols X)).map (fun j => (listMean (colOf X j), listVar (colOf X j)))

/-- One transformed cell, `(x - mean) / sqrt variance`, with sklearn's
`_handle_zeros_in_scale` guard: a zero standard deviation is silently
replaced by 1, so a constant column maps to `x - mean = 0` and no error
is raised. -/
noncomputable def scaleCell (μ v x : ℚ) : ℝ :=
  if v = 0 then ((x - μ : ℚ) : ℝ)
  else ((x - μ : ℚ) : ℝ) / Real.sqrt ((v : ℚ) : ℝ)

/-- Transform one row with fitted per-column statistics. -/
noncomputable def applyStatsRow (st : List (ℚ × ℚ)) (row : List ℚ) : List ℝ :=
  (st.zip row).map (fun p => scaleCell p.1.1 p.1.2 p.2)

/-- `X_scaled = scaler.fit_transform(X)`: every row — later assigned to
either partition — is transformed with the statistics fit on all of `X`. -/
noncomputable def scaledX (X : List (List ℚ)) : List (List ℝ) :=
  X.map (applyStatsRow (fitStats X))

/-- The raw (pre-scaling) rows that land in the training partition. -/
def trainRaw (seed : ℕ) (X : List (List ℚ)) : List (List ℚ) :=
  (trainIdx seed X.length).filterMap X.get?

/-- The raw (pre-scaling) rows that land in the test partition. -/
def testRaw (seed : ℕ) (X : List (List ℚ)) : List (List ℚ) :=
  (testIdx seed X.length).filterMap X.get?

/-- `X_train`: the scaled rows selected by the train indices. -/
noncomputable def trainScaled (seed : ℕ) (X : List (List ℚ)) : List (List ℝ) :=
  (trainIdx seed X.length).filterMap (scaledX X).get?

/-- `X_test`: the scaled rows selected by the test indices. -/
noncomputable def testScaled (seed : ℕ) (X : List (List ℚ)) : List (List ℝ) :=
  (testIdx seed X.length).filterMap (scaledX X).get?

/-! ### Diversity: `pairwise_distances(pred_matrix, metric='hamming').mean()`

`pred_matrix = np.vstack((knn_pred, svm_pred, dt_pred)).T` has one ROW per
held-out instance and one COLUMN per base learner. `pairwise_distances`
computes distances between the rows of its argument, i.e. between the
per-instance prediction triples, and `.mean()` averages all `n × n`
entries of the resulting matrix (diagonal included). -/

/-- The prediction matrix: `M i k` is learner `k`'s hard prediction on
held-out instance `i` (learner order `knn`, `svm`, `dt`). The labels the
script trains on are the Python ints 0/1, so hard predictions are
integers. -/
abbrev PredMatrix (n : ℕ) := Fin n → Fin 3 → ℤ

/-- Hamming distance between two length-3 prediction vectors: the
fraction of the 3 positions at which they differ. -/
def hamming3 (r s : Fin 3 → ℤ) : ℚ :=
  ((Finset.univ.filter (fun k => r k ≠ s k)).card : ℚ) / 3

/-- The script's diversity statistic:
`pairwise_distances(pred_matrix, metric='hamming').mean()` — the mean of
the `n × n` matrix of Hamming distances between the per-instance rows of
`pred_matrix` (`n` = number of held-out instances). -/
def codeDiversity {n : ℕ} (M : PredMatrix n) : ℚ :=
  (∑ i : Fin n, ∑ j : Fin n, hamming3 (M i) (M j)) / ((n : ℚ) * (n : ℚ))

/-- Disagreement rate of one pair of learners: the fraction of held-out
instances on which learners `k` and `l` predict differently. -/
def pairDisagree {n : ℕ} (M : PredMatrix n) (k l : Fin 3) : ℚ :=
  ((Finset.univ.filter (fun i : Fin n => M i k ≠ M i l)).card : ℚ) / (n : ℚ)

/-- Modelled from the spec's words for comparison with `codeDiversity`:
the mean pairwise Hamming disagreement ACROSS THE THREE LEARNERS — the
per-pair disagreement rates of the three learner pairs, averaged over the
pairs. -/
def specDiversity {n : ℕ} (M : PredMatrix n) : ℚ :=
  (pairDisagree M 0 1 + pairDisagree M 0 2 + pairDisagree M 1 2) / 3

/-- All three learners produce identical predictions on every held-out
instance (the columns of `pred_matrix` coincide). -/
def learnersIdentical {n : ℕ} (M : PredMatrix n) : Prop :=
  ∀ i : Fin n, ∀ k l : Fin 3, M i k = M i l

/-- All per-instance prediction triples coincide (the rows of
`pred_matrix` coincide). -/
def rowsIdentical {n : ℕ} (M : PredMatrix n) : Prop :=
  ∀ i j : Fin n, ∀ k : Fin 3, M i k = M j k

/-! ### Grid search and the standalone base learners

The script constructs `knn = KNeighborsClassifier()`,
`svm = SVC(probability=True, random_state=42)`,
`dt = DecisionTreeClassifier(random_state=42)` with constructor-default
hyperparameters, wires CLONES of them into `GridSearchCV(StackingClassifier(...))`
(sklearn estimators are cloned before fitting, so `grid_search.fit` never
mutates the standalone objects), and later refits the standalone objects
themselves for the diversity analysis. -/

/-- Hyperparameters of `KNeighborsClassifier`. -/
structure KNNCfg where
  n_neighbors : ℕ
deriving DecidableEq, Repr

/-- Hyperparameters of `SVC` that the grid varies. -/
structure SVCCfg where
  C : ℚ
  kernel : String
deriving DecidableEq, Repr

/-- Hyperparameters of `DecisionTreeClassifier` that the grid varies. -/
structure DTCfg where
  max_depth : Option ℕ
deriving DecidableEq, Repr

/-- Constructor defaults of `KNeighborsClassifier()`. -/
def knnDefault : KNNCfg := ⟨5⟩

/-- Constructor defaults of `SVC(probability=True, random_state=42)`. -/
def svmDefault : SVCCfg := ⟨1, "rbf"⟩

/-- Constructor defaults of `DecisionTreeClassifier(random_state=42)`. -/
def dtDefault : DTCfg := ⟨none⟩

/-- One point of the script's `param_grid`. -/
structure GridPoint where
  knn_n : ℕ
  svm_C : ℚ
  svm_kernel : String
  dt_depth : Option ℕ
  final_C : ℚ
deriving DecidableEq, Repr

/-- The script's `param_grid`, as the Cartesian product GridSearchCV
enumerates. -/
def paramGrid : List GridPoint :=
  ([3, 5].flatMap (fun n =>
    [(1 : ℚ)/10, 1].flatMap (fun c =>
      ["linear", "rbf"].flatMap (fun k =>
        [none, some 5].flatMap (fun d =>
          [(1 : ℚ)/10, 1].map (fun fc => GridPoint.mk n c k d fc))))))

/-- `GridSearchCV` selection: the first grid point attaining the maximal
cross-validated score (ties keep the earlier point, as sklearn does). -/
def selectBest (score : GridPoint → ℚ) : GridPoint :=
  paramGrid.foldl (fun best g => if score best < score g then g else best)
    (GridPoint.mk 3 (1/10) "linear" none (1/10))

/-- The script state the grid search and diversity stages touch: the
three standalone base-learner objects and the grid-search result. -/
structure ScriptState where
  knn : KNNCfg
  svm : SVCCfg
  dt : DTCfg
  best : Option GridPoint
deriving DecidableEq, Repr

/-- The state right after the three constructor calls. -/
def initState : ScriptState :=
  ScriptState.mk knnDefault svmDefault dtDefault none

/-- `grid_search.fit(X_train, y_train)`: sklearn clones the estimator
tree before fitting each candidate, so the standalone `knn`, `svm`, `dt`
objects are passed through unmodified; only the search result is new. -/
def gridSearchFit (score : GridPoint → ℚ) (s : ScriptState) : ScriptState :=
  ScriptState.mk s.knn s.svm s.dt (some (selectBest score))

/-- The diversity stage of the script, after the grid search ran: refit
the three standalone learner objects as the state then holds them
(`knn.fit` / `svm.fit` / `dt.fit` use each object's own hyperparameters)
and assemble `pred_matrix` column-wise. The `predict*` arguments stand
for the opaque fit-and-predict behaviour of each learner family as a
function of its hyperparameters. -/
def diversityAfterGrid {n : ℕ} (predictKnn : KNNCfg → Fin n → ℤ)
    (predictSvm : SVCCfg → Fin n → ℤ) (predictDt : DTCfg → Fin n → ℤ)
    (score : GridPoint → ℚ) : ℚ :=
  let s := gridSearchFit score initState
  codeDiversity (fun i k =>
    if k = 0 then predictKnn s.knn i
    else if k = 1 then predictSvm s.svm i
    else predictDt s.dt i)

/-! ### Schema constants and concrete instances used by the theorems -/

/-- The canonical column schema (the UCI dataset's names; right-hand side
of `feature_mapping`). -/
def canonicalCols : List String :=
  ["Age", "Sex", "cp", "trestbps", "chol", "fbs", "restecg",
   "thalach", "exang", "oldpeak", "slope", "ca", "num"]

/-- The India dataset's raw column names (left-hand side of
`feature_mapping`). -/
def indiaCols : List String :=
  ["age", "gender", "chestpain", "restingBP", "serumcholestrol",
   "fastingbloodsugar", "restingrelectro", "maxheartrate",
   "exerciseangia", "oldpeak", "slope", "noofmajorvessels", "target"]

/-- No cell of the frame is a string (the model-level reading of "all
columns have a numeric dtype"). -/
def noStrCells (df : DataFrame) : Prop :=
  ∀ p ∈ df.cols, ∀ c ∈ p.2, ∀ s, c ≠ Cell.str s

/-- C4 witness frames: one-row instances of the two expected raw schemas. -/
def validUciFrame : DataFrame :=
  ⟨canonicalCols.map (fun n => (n, [Cell.num 1]))⟩

def validIndiaFrame : DataFrame :=
  ⟨("patientid", [Cell.num 7]) :: indiaCols.map (fun n => (n, [Cell.num 1]))⟩

/-- C8 witness frame: a 20-row single-column dataset. -/
def detFrame : DataFrame :=
  ⟨[("num", (List.range 20).map (fun i => Cell.num i))]⟩

/-- C6 witness frame: one outcome column with a positive, a zero, a
missing, and a negative entry. -/
def outcomeFrame : DataFrame :=
  ⟨[("num", [Cell.num 2, Cell.num 0, Cell.na, Cell.num (-3)])]⟩

/-- C7 witness column: both sentinels, an unparseable string, and two
numeric entries with mean 5. -/
def rawCol : List Cell :=
  [Cell.str "?", Cell.str "-9", Cell.str "abc", Cell.num 4, Cell.num 6]

/-- C3 frames with disjoint schemas. -/
def xFrame : DataFrame := ⟨[("x", [Cell.num 1])]⟩

def yFrame : DataFrame := ⟨[("y", [Cell.num 2])]⟩

/-- C5 matrix: a single constant (zero-variance) feature column. -/
def constMatrix : List (List ℚ) := [[5], [5]]

/-- C1 matrices: identical on all four rows the split assigns to the
training partition (indices 3, 2, 1, 0 for five rows), differing only in
the single held-out test row (index 4). -/
def zeroMatrix : List (List ℚ) := [[0], [0], [0], [0], [0]]

def leakMatrix : List (List ℚ) := [[0], [0], [0], [0], [10]]

/-- C1 witness matrix: five identical one-entry rows. -/
def constColumn : List (List ℚ) := [[3], [3], [3], [3], [3]]

/-- C2 prediction matrix: on both held-out instances the second learner
predicts 1 while the first and third predict 0 — the learners disagree,
yet the two rows coincide. -/
def twinPreds : PredMatrix 2 := fun _ => ![0, 1, 0]

/-! ### Theorems -/

theorem header_clean (df : DataFrame) : (cleanDataset df).header = df.header := by
  simp [cleanDataset, fillnaMean, toNumericDf, replaceSentinels, DataFrame.header, List.map_map]

theorem header_drop (df : DataFrame) :
    (dropPatientid df).header = df.header.filter (fun s => s != "patientid") := by
  simp [dropPatientid, DataFrame.header, List.filter_map]
  rfl

theorem header_rename (df : DataFrame) :
    (renameCols df).header = df.header.map renameName := by
  simp [renameCols, DataFrame.header, List.map_map]

theorem toNumericCell_not_str (c : Cell) (s : String) : toNumericCell c ≠ Cell.str s := by
  cases c with
  | num q => simp [toNumericCell]
  | na => simp [toNumericCell]
  | str t =>
      simp only [toNumericCell]
      cases parseNum t <;> simp

theorem mem_fillCol (l : List Cell) (x : Cell) (hx : x ∈ fillCol l) :
    x ∈ l ∨ ∃ m, x = Cell.num m := by
  unfold fillCol at hx
  cases h : colMean l with
  | none => rw [h] at hx; exact Or.inl hx
  | some m =>
      rw [h] at hx
      rcases List.mem_map.mp hx with ⟨c, hc, hcx⟩
      cases c with
      | na => exact Or.inr ⟨m, hcx.symm⟩
      | num q => exact Or.inl (hcx ▸ hc)
      | str t => exact Or.inl (hcx ▸ hc)

theorem noStr_clean (df : DataFrame) : noStrCells (cleanDataset df) := by
  intro p hp c hc s
  simp only [cleanDataset, fillnaMean, toNumericDf, replaceSentinels, List.map_map] at hp
  rcases List.mem_map.mp hp with ⟨q, _, hq⟩
  subst hq
  rcases mem_fillCol _ _ hc with h | ⟨m, hm⟩
  · rcases List.mem_map.mp h with ⟨c0, _, hc0⟩
    exact hc0 ▸ toNumericCell_not_str c0 s
  · simp [hm]

theorem noStr_drop (df : DataFrame) (h : noStrCells df) : noStrCells (dropPatientid df) := by
  intro p hp
  exact h p (List.mem_of_mem_filter hp)

theorem noStr_rename (df : DataFrame) (h : noStrCells df) : noStrCells (renameCols df) := by
  intro p hp c hc s
  rcases List.mem_map.mp hp with ⟨q, hq, hqp⟩
  exact h q hq c (by rw [← hqp] at hc; exact hc) s

/-- C4: after harmonization the two frames expose identical column sets
(and, at the model's dtype granularity, all-numeric columns). -/
theorem c4_harmonized_schemas_match (A B : DataFrame)
    (hA : A.header = canonicalCols)
    (hB : B.header.filter (fun s => s != "patientid") = indiaCols) :
    (harmonizeUci A).header = (harmonizeIndia B).header ∧
    noStrCells (harmonizeUci A) ∧ noStrCells (harmonizeIndia B) := by
  refine ⟨?_, noStr_clean A, noStr_rename _ (noStr_drop _ (noStr_clean B))⟩
  show (cleanDataset A).header = (renameCols (dropPatientid (cleanDataset B))).header
  rw [header_clean, hA, header_rename, header_drop, header_clean, hB]
  decide

theorem c4_harmonized_schemas_match_witness :
    validUciFrame.header = canonicalCols ∧
    validIndiaFrame.header.filter (fun s => s != "patientid") = indiaCols ∧
    (harmonizeUci validUciFrame).header = (harmonizeIndia validIndiaFrame).header := by
  refine ⟨rfl, rfl, ?_⟩
  exact (c4_harmonized_schemas_match validUciFrame validIndiaFrame rfl rfl).1

/-- C9: the binarization lambda on the missing marker and its totality. -/
theorem c9_binarize_total_on_missing :
    binarizeCell Cell.na = Cell.num 0 ∧
    ∀ c : Cell, binarizeCell c = Cell.num 0 ∨ binarizeCell c = Cell.num 1 := by
  refine ⟨rfl, ?_⟩
  intro c
  cases hc : cellPos c <;> simp [binarizeCell, hc]

/-- C10: the diversity stage after the grid search. -/
theorem c10_diversity_grid_independent :
    ∀ (n : ℕ) (pK : KNNCfg → Fin n → ℤ) (pS : SVCCfg → Fin n → ℤ)
      (pD : DTCfg → Fin n → ℤ) (score1 score2 : GridPoint → ℚ),
      diversityAfterGrid pK pS pD score1 = diversityAfterGrid pK pS pD score2 ∧
      (gridSearchFit score1 initState).knn = knnDefault ∧
      (gridSearchFit score1 initState).svm = svmDefault ∧
      (gridSearchFit score1 initState).dt = dtDefault := by
  intro n pK pS pD score1 score2
  exact ⟨rfl, rfl, rfl, rfl⟩

/-- C8: two runs with equal inputs and the same seed select the same rows
and the same partitions. -/
theorem c8_sampling_deterministic (d1 d2 : DataFrame) (seed : ℕ) (h : d1 = d2) :
    sampledIdx seed d1.nRows = sampledIdx seed d2.nRows ∧
    sampleDf seed d1 = sampleDf seed d2 ∧
    trainIdx seed (sampleDf seed d1).nRows = trainIdx seed (sampleDf seed d2).nRows ∧
    testIdx seed (sampleDf seed d1).nRows = testIdx seed (sampleDf seed d2).nRows := by
  subst h
  exact ⟨rfl, rfl, rfl, rfl⟩

theorem c8_sampling_deterministic_witness :
    (detFrame : DataFrame) = detFrame ∧ sampleDf 42 detFrame = sampleDf 42 detFrame := by
  exact ⟨rfl, (c8_sampling_deterministic detFrame detFrame 42 rfl).2.1⟩

theorem colCells_binarizeNum (df : DataFrame) :
    (binarizeNum df).colCells "num" = (df.colCells "num").map binarizeCell := by
  obtain ⟨cols⟩ := df
  induction cols with
  | nil => rfl
  | cons p t ih =>
      cases hb : (p.1 == "num") with
      | true =>
          simp only [binarizeNum, DataFrame.colCells, List.map_cons, hb, if_true,
            List.find?_cons, Option.elim]
      | false =>
          simp only [binarizeNum, DataFrame.colCells, List.map_cons, hb, if_false,
            List.find?_cons, Bool.false_eq_true, Option.elim] at ih ⊢
          exact ih

theorem binarizeCell_eq_zero_or_one (c : Cell) :
    binarizeCell c = Cell.num 0 ∨ binarizeCell c = Cell.num 1 := by
  cases hc : cellPos c <;> simp [binarizeCell, hc]

/-- C6: the binarization lambda and its domain invariant. -/
theorem c6_binarize_domain :
    (∀ uci india : DataFrame,
      combinedData uci india =
        pdConcat (binarizeNum (harmonizeUci uci)) (binarizeNum (harmonizeIndia india))) ∧
    (∀ c : Cell, binarizeCell c = Cell.num 1 ↔ ∃ q : ℚ, c = Cell.num q ∧ 0 < q) ∧
    (∀ df : DataFrame, ∀ c ∈ (binarizeNum df).colCells "num",
      c = Cell.num 0 ∨ c = Cell.num 1) := by
  refine ⟨fun _ _ => rfl, ?_, ?_⟩
  · intro c
    cases c with
    | num q =>
        by_cases h : 0 < q <;> simp [binarizeCell, cellPos, h]
    | na => simp [binarizeCell, cellPos]
    | str t => simp [binarizeCell, cellPos]
  · intro df c hc
    rw [colCells_binarizeNum] at hc
    rcases List.mem_map.mp hc with ⟨c0, _, h0⟩
    exact h0 ▸ binarizeCell_eq_zero_or_one c0

theorem c6_binarize_domain_witness :
    Cell.num 1 ∈ (binarizeNum outcomeFrame).colCells "num" ∧
    (Cell.num 1 = Cell.num 0 ∨ Cell.num 1 = Cell.num 1) := by
  have hmem : Cell.num 1 ∈ (binarizeNum outcomeFrame).colCells "num" := by
    rw [colCells_binarizeNum]
    norm_num [outcomeFrame, DataFrame.colCells, binarizeCell, cellPos]
  exact ⟨hmem, c6_binarize_domain.2.2 outcomeFrame (Cell.num 1) hmem⟩

theorem cleanCol_eq (cs : List Cell) : cleanCol cs = fillCol (cs.map coerceCell) := by
  unfold cleanCol
  rw [List.map_map]
  rfl

theorem colMean_eq_none_iff (l : List Cell) :
    colMean l = none ↔ ∀ c ∈ l, numVal c = none := by
  show (if (l.filterMap numVal).length = 0 then none
        else some ((l.filterMap numVal).sum / ((l.filterMap numVal).length : ℚ))) = none ↔ _
  by_cases h : (l.filterMap numVal).length = 0
  · rw [if_pos h]
    simp only [true_iff]
    exact fun c hc =>
      List.filterMap_eq_nil_iff.mp (List.length_eq_zero.mp h) c hc
  · rw [if_neg h]
    simp only [reduceCtorEq, false_iff]
    intro hall
    exact h (by rw [List.length_eq_zero, List.filterMap_eq_nil_iff]; exact hall)

theorem replaceSentinelCell_str (s : String) (h1 : s ≠ "?") (h2 : s ≠ "-9") :
    replaceSentinelCell (Cell.str s) = Cell.str s := by
  unfold replaceSentinelCell
  split <;> simp_all

/-- C7: the cleaning contract, per column and per cell. -/
theorem c7_cleaning_contract :
    (∀ df : DataFrame, (cleanDataset df).cols = df.cols.map (fun p => (p.1, cleanCol p.2))) ∧
    coerceCell (Cell.str "?") = Cell.na ∧
    coerceCell (Cell.str "-9") = Cell.na ∧
    (∀ s : String, parseNum s = none → coerceCell (Cell.str s) = Cell.na) ∧
    (∀ s : String, ∀ q : ℚ, parseNum s = some q → s ≠ "?" → s ≠ "-9" →
      coerceCell (Cell.str s) = Cell.num q) ∧
    (∀ cs : List Cell, ∀ i : ℕ, i < cs.length →
      (∀ q : ℚ, coerceCell (cs.getD i Cell.na) = Cell.num q →
        (cleanCol cs).getD i Cell.na = Cell.num q) ∧
      (coerceCell (cs.getD i Cell.na) = Cell.na →
        (∀ m : ℚ, colMean (cs.map coerceCell) = some m →
          (cleanCol cs).getD i Cell.na = Cell.num m) ∧
        (colMean (cs.map coerceCell) = none →
          (cleanCol cs).getD i Cell.na = Cell.na))) := by
  refine ⟨?_, rfl, rfl, ?_, ?_, ?_⟩
  · intro df
    simp only [cleanDataset, fillnaMean, toNumericDf, replaceSentinels, List.map_map]
    rfl
  · intro s h
    by_cases h1 : s = "?"
    · subst h1; rfl
    by_cases h2 : s = "-9"
    · subst h2; rfl
    unfold coerceCell
    rw [replaceSentinelCell_str s h1 h2]
    simp [toNumericCell, h]
  · intro s q hq h1 h2
    unfold coerceCell
    rw [replaceSentinelCell_str s h1 h2]
    simp [toNumericCell, hq]
  · intro cs i hi
    have hli : i < (cs.map coerceCell).length := by simpa using hi
    have hgl : (cs.map coerceCell).getD i Cell.na = coerceCell (cs.getD i Cell.na) := by
      rw [List.getD_eq_getElem _ _ hli, List.getD_eq_getElem _ _ hi, List.getElem_map]
    have hmem : (cs.map coerceCell).getD i Cell.na ∈ cs.map coerceCell := by
      rw [List.getD_eq_getElem _ _ hli]
      exact List.getElem_mem _
    constructor
    · intro q hq
      cases hm : colMean (cs.map coerceCell) with
      | none =>
          exfalso
          have hnone := (colMean_eq_none_iff _).mp hm _ hmem
          rw [hgl, hq] at hnone
          simp [numVal] at hnone
      | some m =>
          rw [cleanCol_eq]
          unfold fillCol
          rw [hm]
          have hlim : i < ((cs.map coerceCell).map
              (fun c => match c with | Cell.na => Cell.num m | c => c)).length := by
            simpa using hi
          rw [List.getD_eq_getElem _ _ hlim, List.getElem_map]
          rw [List.getD_eq_getElem _ _ hli] at hgl
          rw [hgl, hq]
    · intro hna
      constructor
      · intro m hm
        rw [cleanCol_eq]
        unfold fillCol
        rw [hm]
        have hlim : i < ((cs.map coerceCell).map
            (fun c => match c with | Cell.na => Cell.num m | c => c)).length := by
          simpa using hi
        rw [List.getD_eq_getElem _ _ hlim, List.getElem_map]
        rw [List.getD_eq_getElem _ _ hli] at hgl
        rw [hgl, hna]
      · intro hm
        rw [cleanCol_eq]
        unfold fillCol
        rw [hm]
        rw [hgl, hna]

theorem c7_cleaning_contract_witness :
    0 < rawCol.length ∧
    coerceCell (rawCol.getD 0 Cell.na) = Cell.na ∧
    colMean (rawCol.map coerceCell) = some 5 ∧
    (cleanCol rawCol).getD 0 Cell.na = Cell.num 5 := by
  have hcm : colMean (rawCol.map coerceCell) = some 5 := by
    have hmap : rawCol.map coerceCell =
        [Cell.na, Cell.na, Cell.na, Cell.num 4, Cell.num 6] := rfl
    rw [hmap]
    norm_num [colMean, numVal, List.filterMap_cons, List.filterMap_nil,
      List.sum_cons, List.sum_nil]
  exact ⟨by decide, rfl, hcm,
    ((c7_cleaning_contract.2.2.2.2.2 rawCol 0 (by decide)).2 rfl).1 5 hcm⟩

/-- C3 counterexample: mismatched schemas do not fail — `pd.concat`
produces a combined frame, aligning columns and filling with the missing
marker. -/
theorem c3_concat_no_schema_error :
    xFrame.header ≠ yFrame.header ∧
    pdConcat xFrame yFrame =
      ⟨[("x", [Cell.num 1, Cell.na]), ("y", [Cell.na, Cell.num 2])]⟩ := by
  exact ⟨by decide, rfl⟩

/-- C3 amended: concatenation is total; the result's columns are the
first frame's followed by the second's extras, and every column has one
entry per row of either input. -/
theorem c3_concat_outer_align :
    (∀ a b : DataFrame, (pdConcat a b).header =
        a.header ++
          (b.cols.filter (fun p => !(a.cols.any (fun q => q.1 == p.1)))).map Prod.fst) ∧
    (∀ a b : DataFrame, a.WellFormed → b.WellFormed →
        ∀ p ∈ (pdConcat a b).cols, p.2.length = a.nRows + b.nRows) := by
  constructor
  · intro a b
    simp only [pdConcat, DataFrame.header, List.map_append, List.map_map]
    rfl
  · intro a b wfa wfb p hp
    rcases List.mem_append.mp hp with h | h
    · rcases List.mem_map.mp h with ⟨p0, hp0, rfl⟩
      simp only [List.length_append]
      rw [wfa p0 hp0]
      congr 1
      cases hf : b.cols.find? (fun q => q.1 == p0.1) with
      | none => simp [List.length_replicate]
      | some q0 =>
          simp only [Option.elim]
          exact wfb q0 (List.mem_of_find?_eq_some hf)
    · rcases List.mem_map.mp h with ⟨p0, hp0, rfl⟩
      simp only [List.length_append, List.length_replicate]
      rw [wfb p0 (List.mem_of_mem_filter hp0)]

theorem c3_concat_outer_align_witness :
    xFrame.WellFormed ∧ yFrame.WellFormed ∧
    ∀ p ∈ (pdConcat xFrame yFrame).cols,
      p.2.length = xFrame.nRows + yFrame.nRows := by
  have wfx : xFrame.WellFormed := by unfold DataFrame.WellFormed; decide
  have wfy : yFrame.WellFormed := by unfold DataFrame.WellFormed; decide
  exact ⟨wfx, wfy, c3_concat_outer_align.2 xFrame yFrame wfx wfy⟩

theorem listMean_const (l : List ℚ) (c : ℚ) (h : ∀ x ∈ l, x = c) (hne : l ≠ []) :
    listMean l = c := by
  unfold listMean
  rw [List.sum_eq_card_nsmul l c h, nsmul_eq_mul]
  have hlen : (l.length : ℚ) ≠ 0 :=
    Nat.cast_ne_zero.mpr (fun h0 => hne (List.length_eq_zero.mp h0))
  rw [mul_comm, mul_div_assoc, div_self hlen, mul_one]

theorem listVar_const (l : List ℚ) (c : ℚ) (h : ∀ x ∈ l, x = c) : listVar l = 0 := by
  by_cases hne : l = []
  · subst hne
    simp [listVar]
  · unfold listVar
    rw [List.sum_eq_zero, zero_div]
    intro x hx
    rcases List.mem_map.mp hx with ⟨y, hy, rfl⟩
    rw [h y hy, listMean_const l c h hne, sub_self]
    ring

theorem fitStats_length (X : List (List ℚ)) : (fitStats X).length = ncols X := by
  simp [fitStats]

theorem fitStats_getElem (X : List (List ℚ)) (j : ℕ) (hj : j < (fitStats X).length) :
    (fitStats X)[j] = (listMean (colOf X j), listVar (colOf X j)) := by
  simp [fitStats]

/-- C5 counterexample: on a zero-variance column the scaler raises no
error; it silently produces the all-zero column. -/
theorem c5_zero_variance_no_error :
    fitStats constMatrix = [(5, 0)] ∧ scaledX constMatrix = [[0], [0]] := by
  have hf : fitStats constMatrix = [(5, 0)] := by
    have hr1 : List.range 1 = [0] := rfl
    norm_num [fitStats, constMatrix, ncols, colOf, listMean, listVar, hr1,
      List.getD, List.getElem?_cons_zero]
  refine ⟨hf, ?_⟩
  show constMatrix.map (applyStatsRow (fitStats constMatrix)) = [[0], [0]]
  rw [hf]
  norm_num [constMatrix, applyStatsRow, scaleCell]

/-- C5 amended: a zero-variance (constant) feature column is scaled with
divisor 1 (sklearn's zero guard), so every scaled entry of that column is
0; no failure occurs. -/
theorem c5_zero_variance_silent_zero (X : List (List ℚ)) (j : ℕ) (c : ℚ)
    (hrect : ∀ r ∈ X, r.length = ncols X) (hconst : ∀ r ∈ X, r.getD j 0 = c)
    (hj : j < ncols X) :
    ∀ s ∈ scaledX X, s.getD j 0 = 0 := by
  intro s hs
  rcases List.mem_map.mp hs with ⟨r, hr, rfl⟩
  have hcol : ∀ x ∈ colOf X j, x = c := by
    intro x hx
    rcases List.mem_map.mp hx with ⟨r0, hr0, rfl⟩
    exact hconst r0 hr0
  have hcolne : colOf X j ≠ [] := by
    simp only [colOf, ne_eq, List.map_eq_nil_iff]
    intro h
    subst h
    simp at hr
  have hrlen : r.length = ncols X := hrect r hr
  have hjz : j < (((fitStats X).zip r).map (fun p => scaleCell p.1.1 p.1.2 p.2)).length := by
    rw [List.length_map, List.length_zip, fitStats_length, hrlen, min_self]
    exact hj
  have hjs : j < (fitStats X).length := by rw [fitStats_length]; exact hj
  have hjr : j < r.length := by rw [hrlen]; exact hj
  show (applyStatsRow (fitStats X) r).getD j 0 = 0
  unfold applyStatsRow
  rw [List.getD_eq_getElem _ _ hjz, List.getElem_map, List.getElem_zip,
    fitStats_getElem X j hjs]
  have hrj : r[j] = c := by
    rw [← List.getD_eq_getElem r 0 hjr]
    exact hconst r hr
  rw [hrj, listMean_const _ c hcol hcolne, listVar_const _ c hcol]
  unfold scaleCell
  rw [if_pos rfl, sub_self]
  norm_num

theorem c5_zero_variance_silent_zero_witness :
    (∀ r ∈ constMatrix, r.length = ncols constMatrix) ∧
    (∀ r ∈ constMatrix, r.getD 0 0 = 5) ∧
    0 < ncols constMatrix ∧
    ∀ s ∈ scaledX constMatrix, s.getD 0 0 = 0 := by
  have h1 : ∀ r ∈ constMatrix, r.length = ncols constMatrix := by decide
  have h2 : ∀ r ∈ constMatrix, r.getD 0 0 = (5 : ℚ) := by
    norm_num [constMatrix]
  have h3 : 0 < ncols constMatrix := by decide
  exact ⟨h1, h2, h3, c5_zero_variance_silent_zero constMatrix 0 5 h1 h2 h3⟩

/-- C1 counterexample: two feature matrices with identical training rows
but a different test row give the scaler different statistics, so the
statistics are not a function of the training rows only. -/
theorem c1_scaler_stats_not_train_only :
    trainRaw 42 zeroMatrix = trainRaw 42 leakMatrix ∧
    testRaw 42 zeroMatrix ≠ testRaw 42 leakMatrix ∧
    fitStats zeroMatrix ≠ fitStats leakMatrix := by
  have hr1 : List.range 1 = [0] := rfl
  have hz : fitStats zeroMatrix = [(0, 0)] := by
    norm_num [fitStats, zeroMatrix, ncols, colOf, listMean, listVar, hr1,
      List.getD, List.getElem?_cons_zero]
  have hl : fitStats leakMatrix = [(2, 16)] := by
    norm_num [fitStats, leakMatrix, ncols, colOf, listMean, listVar, hr1,
      List.getD, List.getElem?_cons_zero]
  have ht0 : testRaw 42 zeroMatrix = [[0]] := rfl
  have ht1 : testRaw 42 leakMatrix = [[10]] := rfl
  refine ⟨rfl, ?_, ?_⟩
  · rw [ht0, ht1]
    intro h
    norm_num [List.cons.injEq] at h
  · rw [hz, hl]
    intro h
    norm_num [List.cons.injEq, Prod.ext_iff] at h

/-- C1 amended: every scaled row of either partition is an original row
transformed with the single statistics vector fit on ALL sampled rows
(train and test together, before the split), reused unmodified on both
partitions. -/
theorem c1_scaler_stats_full_matrix (seed : ℕ) (X : List (List ℚ)) (r : List ℝ) :
    (r ∈ testScaled seed X → ∃ r0 ∈ X, r = applyStatsRow (fitStats X) r0) ∧
    (r ∈ trainScaled seed X → ∃ r0 ∈ X, r = applyStatsRow (fitStats X) r0) := by
  constructor
  · intro hr
    rcases List.mem_filterMap.mp hr with ⟨i, _, hgi⟩
    have hmem : r ∈ scaledX X := List.get?_mem hgi
    rcases List.mem_map.mp hmem with ⟨r0, hr0, hfr⟩
    exact ⟨r0, hr0, hfr.symm⟩
  · intro hr
    rcases List.mem_filterMap.mp hr with ⟨i, _, hgi⟩
    have hmem : r ∈ scaledX X := List.get?_mem hgi
    rcases List.mem_map.mp hmem with ⟨r0, hr0, hfr⟩
    exact ⟨r0, hr0, hfr.symm⟩

theorem c1_scaler_stats_full_matrix_witness :
    applyStatsRow (fitStats constColumn) [3] ∈ testScaled 42 constColumn ∧
    ∃ r0 ∈ constColumn,
      applyStatsRow (fitStats constColumn) [3] = applyStatsRow (fitStats constColumn) r0 := by
  have hmem : applyStatsRow (fitStats constColumn) [3] ∈ testScaled 42 constColumn := by
    have hts : testScaled 42 constColumn = [applyStatsRow (fitStats constColumn) [3]] := rfl
    rw [hts]
    exact List.mem_singleton.mpr rfl
  exact ⟨hmem, (c1_scaler_stats_full_matrix 42 constColumn _).1 hmem⟩

theorem hamming3_nonneg (r s : Fin 3 → ℤ) : 0 ≤ hamming3 r s :=
  div_nonneg (Nat.cast_nonneg _) (by norm_num)

theorem hamming3_le_one (r s : Fin 3 → ℤ) : hamming3 r s ≤ 1 := by
  unfold hamming3
  rw [div_le_one (by norm_num : (0 : ℚ) < 3)]
  have h : (Finset.univ.filter (fun k => r k ≠ s k)).card ≤ 3 :=
    le_trans (Finset.card_filter_le _ _) (by simp)
  exact_mod_cast h

theorem hamming3_eq_zero_iff (r s : Fin 3 → ℤ) :
    hamming3 r s = 0 ↔ ∀ k, r k = s k := by
  unfold hamming3
  rw [div_eq_zero_iff]
  constructor
  · rintro (h | h)
    · have hc : (Finset.univ.filter (fun k => r k ≠ s k)).card = 0 := by exact_mod_cast h
      intro k
      by_contra hk
      have hmem : k ∈ Finset.univ.filter (fun k => r k ≠ s k) :=
        Finset.mem_filter.mpr ⟨Finset.mem_univ _, hk⟩
      rw [Finset.card_eq_zero] at hc
      rw [hc] at hmem
      exact absurd hmem (Finset.not_mem_empty k)
    · norm_num at h
  · intro h
    left
    have he : (Finset.univ.filter (fun k => r k ≠ s k)) = ∅ :=
      Finset.filter_eq_empty_iff.mpr (fun k _ => not_not_intro (h k))
    rw [he]
    simp

theorem hamming3_perm (σ : Equiv.Perm (Fin 3)) (r s : Fin 3 → ℤ) :
    hamming3 (fun k => r (σ k)) (fun k => s (σ k)) = hamming3 r s := by
  unfold hamming3
  congr 2
  rw [← Finset.card_map σ.toEmbedding]
  congr 1
  ext a
  simp only [Finset.mem_map, Finset.mem_filter, Finset.mem_univ, true_and,
    Equiv.toEmbedding_apply]
  constructor
  · rintro ⟨k, hk, rfl⟩
    exact hk
  · intro ha
    exact ⟨σ.symm a, by simpa using ha, by simp⟩

/-- C2 amended: the diversity statistic is the mean row-pairwise Hamming
distance (over all ordered pairs of held-out instances); it lies in
[0, 1], is invariant under reordering the three learners, and — for a
nonempty held-out set — vanishes exactly when all per-instance prediction
triples coincide. -/
theorem c2_diversity_rowwise (n : ℕ) (M : PredMatrix n) :
    (0 ≤ codeDiversity M ∧ codeDiversity M ≤ 1) ∧
    (∀ σ : Equiv.Perm (Fin 3), codeDiversity (fun i k => M i (σ k)) = codeDiversity M) ∧
    (0 < n → (codeDiversity M = 0 ↔ rowsIdentical M)) := by
  refine ⟨⟨?_, ?_⟩, ?_, ?_⟩
  · exact div_nonneg
      (Finset.sum_nonneg (fun i _ => Finset.sum_nonneg (fun j _ => hamming3_nonneg _ _)))
      (mul_nonneg (Nat.cast_nonneg n) (Nat.cast_nonneg n))
  · rcases Nat.eq_zero_or_pos n with hn | hn
    · subst hn
      show (∑ i : Fin 0, _) / _ ≤ 1
      simp
    · have hpos : (0 : ℚ) < (n : ℚ) * (n : ℚ) := by
        have : (0 : ℚ) < (n : ℚ) := by exact_mod_cast hn
        exact mul_pos this this
      rw [codeDiversity, div_le_one hpos]
      calc (∑ i : Fin n, ∑ j : Fin n, hamming3 (M i) (M j))
          ≤ ∑ _i : Fin n, ∑ _j : Fin n, (1 : ℚ) :=
            Finset.sum_le_sum (fun i _ =>
              Finset.sum_le_sum (fun j _ => hamming3_le_one (M i) (M j)))
        _ = (n : ℚ) * (n : ℚ) := by
            simp [Finset.sum_const, Finset.card_univ, mul_comm]
  · intro σ
    unfold codeDiversity
    congr 1
    exact Finset.sum_congr rfl (fun i _ =>
      Finset.sum_congr rfl (fun j _ => hamming3_perm σ (M i) (M j)))
  · intro hn
    constructor
    · intro h0
      have hden : ((n : ℚ) * (n : ℚ)) ≠ 0 := by
        have : (0 : ℚ) < (n : ℚ) := by exact_mod_cast hn
        exact ne_of_gt (mul_pos this this)
      rw [codeDiversity, div_eq_zero_iff] at h0
      rcases h0 with h0 | h0
      · intro i j k
        have houter := (Finset.sum_eq_zero_iff_of_nonneg
          (fun i _ => Finset.sum_nonneg (fun j _ => hamming3_nonneg _ _))).mp h0
        have hinner := (Finset.sum_eq_zero_iff_of_nonneg
          (fun j _ => hamming3_nonneg _ _)).mp (houter i (Finset.mem_univ i))
        exact (hamming3_eq_zero_iff _ _).mp (hinner j (Finset.mem_univ j)) k
      · exact absurd h0 hden
    · intro hrows
      unfold codeDiversity
      rw [Finset.sum_eq_zero, zero_div]
      intro i _
      rw [Finset.sum_eq_zero]
      intro j _
      exact (hamming3_eq_zero_iff _ _).mpr (hrows i j)

/-- C2 counterexample: the script's statistic is 0 on `twinPreds` even
though the three learners do NOT produce identical predictions, and it
differs from the spec's learner-pairwise mean disagreement (2/3). -/
theorem c2_diversity_not_learner_pairwise :
    codeDiversity twinPreds = 0 ∧
    specDiversity twinPreds ≠ codeDiversity twinPreds ∧
    ¬ learnersIdentical twinPreds := by
  have hcard : ∀ i j : Fin 2,
      (Finset.univ.filter (fun k => twinPreds i k ≠ twinPreds j k)).card = 0 := by decide
  have hc : codeDiversity twinPreds = 0 := by
    norm_num [codeDiversity, hamming3, Fin.sum_univ_two, hcard]
  have h1 : (Finset.univ.filter (fun i : Fin 2 => twinPreds i 0 ≠ twinPreds i 1)).card = 2 := by
    decide
  have h2 : (Finset.univ.filter (fun i : Fin 2 => twinPreds i 0 ≠ twinPreds i 2)).card = 0 := by
    decide
  have h3 : (Finset.univ.filter (fun i : Fin 2 => twinPreds i 1 ≠ twinPreds i 2)).card = 2 := by
    decide
  have hs : specDiversity twinPreds = 2 / 3 := by
    norm_num [specDiversity, pairDisagree, h1, h2, h3]
  refine ⟨hc, ?_, ?_⟩
  · rw [hc, hs]
    norm_num
  · unfold learnersIdentical
    decide

theorem c2_diversity_rowwise_witness :
    0 < 2 ∧ (codeDiversity twinPreds = 0 ↔ rowsIdentical twinPreds) :=
  ⟨by norm_num, (c2_diversity_rowwise 2 twinPreds).2.2 (by norm_num)⟩
